import Mathlib

/-!
Verification of the BMSAD actor-definition decoder
(`mercury_engine_data_structures/formats/bmsad.py`).

The byte stream is a `List Nat` of bytes; every decoder is a total function
`List Nat → Except DecodeError (α × List Nat)` returning the decoded value and
the remaining stream.  Definitions are translated from `bmsad.py`; helpers that
the source imports from modules outside the provided sources
(`common_types`, `type_lib`, `construct_extensions`, `property_enum`) are
modelled from the specification, as noted on each such definition.
-/

set_option autoImplicit false

namespace Bmsad

/-- Decode failures.  `withMessage` models the source's `ErrorWithMessage`
construct (the message is the evaluated f-string); `formatViolation` models
`Const` mismatches, `Terminated` failures and length-framing mismatches;
`unknownType` models the hierarchy registry's failed parent lookup;
`duplicateKey` models the dictionary adapter's duplicate-key rejection;
`streamError` is reading past the end of the input; `recursionError` models
the interpreter's bound on the recursive schema ascent. -/
inductive DecodeError where
  | streamError
  | formatViolation
  | withMessage (msg : String)
  | unknownType (t : String)
  | duplicateKey
  | recursionError
  deriving DecidableEq

/-- A property key: an interned identifier resolved against the string table,
kept as the raw identifier when the table does not know it.
Modelled from the spec: interned keys must tolerate unknown identifiers. -/
inductive PKey where
  | known (s : String)
  | unknown (id : Nat)
  deriving DecidableEq

/-- A decoder over a byte stream. -/
abbrev Dec (α : Type) : Type := List Nat → Except DecodeError (α × List Nat)

/-- Little-endian interpretation of a byte list. -/
def leNat : List Nat → Nat
  | [] => 0
  | b :: bs => b + 256 * leNat bs

/-- Little-endian 4-byte encoding of a number (used to state theorems about
length prefixes and counts). -/
def u32le (n : Nat) : List Nat :=
  [n % 256, n / 256 % 256, n / 256 ^ 2 % 256, n / 256 ^ 3 % 256]

/-- Read exactly `n` bytes from the stream. -/
def readBytes (n : Nat) : Dec (List Nat) := fun s =>
  if n ≤ s.length then .ok (s.take n, s.drop n) else .error .streamError

/-- `Int32ul`: little-endian unsigned 32-bit integer. -/
def Int32ul : Dec Nat := fun s => do
  let (bs, r) ← readBytes 4 s
  pure (leNat bs, r)

/-- `Int16ul`: little-endian unsigned 16-bit integer. -/
def Int16ul : Dec Nat := fun s => do
  let (bs, r) ← readBytes 2 s
  pure (leNat bs, r)

/-- `Byte`: one byte. -/
def ByteDec : Dec Nat := fun s =>
  match s with
  | [] => .error .streamError
  | b :: r => .ok (b, r)

/-- `Flag`: one byte, true iff nonzero. -/
def FlagDec : Dec Bool := fun s => do
  let (b, r) ← ByteDec s
  pure (b ≠ 0, r)

/-- `Float32l`: a little-endian 32-bit float, kept as its raw bit pattern
(no numeric interpretation of the float is needed by the format). -/
def Float32l : Dec Nat := Int32ul

/-- Bytes of a zero-terminated string up to (excluding) the terminator,
rendered as a string one code point per byte. -/
def cStringChars : List Nat → Except DecodeError (String × List Nat)
  | [] => .error .streamError
  | b :: rest =>
    if b = 0 then .ok ("", rest)
    else do
      let (str, r) ← cStringChars rest
      pure (String.mk (Char.ofNat b :: str.data), r)

/-- `StrId`.  Modelled from the spec: resource names, type names and string
values are zero-terminated strings in the stream (`common_types.StrId` is not
among the provided sources); each byte is rendered as one code point, exact
for the ASCII identifiers the format uses. -/
def StrId : Dec String := cStringChars

/-- First value associated to a key in an association list (the registries are
mappings with unique keys; lookup returns the first match). -/
def assocFind {α β : Type} [DecidableEq α] : List (α × β) → α → Option β
  | [], _ => none
  | (a, b) :: rest, k => if a = k then some b else assocFind rest k

/-- `PropertyEnum`.  Modelled from the spec: an interned key is an 8-byte
identifier resolved against the string-interning table; identifiers missing
from the table are kept raw (they must round-trip across game versions). -/
def PropertyEnum (interns : List (Nat × String)) : Dec PKey := fun s => do
  let (bs, r) ← readBytes 8 s
  match assocFind interns (leNat bs) with
  | some n => pure (PKey.known n, r)
  | none => pure (PKey.unknown (leNat bs), r)

/-- The registries the decoder consumes: the type-hierarchy parent table
(`type_lib`), the schema table (`dread_types`, each schema being a field
decoder producing an opaque value), and the string-interning table.
All are read-only configuration supplied per game version. -/
structure Registry where
  parents : List (String × String)
  fieldtypes : List (String × Dec (List Nat))
  interns : List (Nat × String)

/-- Fuel bounding the hierarchy ascents: one step per registered parent edge
suffices for any acyclic chain, and a cyclic table exhausts the fuel instead
of diverging (the source relies on the interpreter's recursion bound; the
spec requires the ascent to be depth-bounded). -/
def ascentFuel (parents : List (String × String)) : Nat :=
  parents.length + 1

/-- `type_lib.get_parent_for`.  Modelled from the spec: returns the registered
parent of a type, failing with the unknown-type error naming the looked-up
type when it has no registered entry. -/
def get_parent_for (parents : List (String × String)) (t : String) :
    Except DecodeError String :=
  match assocFind parents t with
  | some p => .ok p
  | none => .error (.unknownType t)

/-- `type_lib.is_child_of`.  Modelled from the spec: true iff the ancestor
equals the type or is reachable by repeated parent lookup; the ascent is
depth-bounded; a type whose chain leaves the table is not a child. -/
def is_child_of (parents : List (String × String)) :
    Nat → String → String → Bool
  | 0, _, _ => false
  | fuel + 1, t, anc =>
    if t = anc then true
    else
      match assocFind parents t with
      | some p => is_child_of parents fuel p anc
      | none => false

/-- `find_charclass_for_type`: the root type maps directly to its fixed schema
name; otherwise the candidate replaces the class-name prefix with `CCharClass`
and is returned when registered, else the search recurses on the parent.
The fuel models the interpreter's recursion bound. -/
def find_charclass_for_type (reg : Registry) :
    Nat → String → Except DecodeError String
  | 0, _ => .error .recursionError
  | fuel + 1, type_name =>
    if type_name = "CActorComponent" then .ok "CActorComponentDef"
    else
      let as_char := "CCharClass" ++ type_name.drop 1
      if (assocFind reg.fieldtypes as_char).isSome then .ok as_char
      else
        match get_parent_for reg.parents type_name with
        | .ok p => find_charclass_for_type reg fuel p
        | .error e => .error e

/-- The chain of types visited by a depth-bounded ascent from a type. -/
def ancestorChain (parents : List (String × String)) :
    Nat → String → List String
  | 0, t => [t]
  | fuel + 1, t =>
    t ::
      match assocFind parents t with
      | some p => ancestorChain parents fuel p
      | none => []

/-- Decode exactly `n` elements in sequence. -/
def decodeCount {α : Type} (d : Dec α) : Nat → Dec (List α)
  | 0 => fun s => .ok ([], s)
  | n + 1 => fun s => do
    let (x, s1) ← d s
    let (xs, s2) ← decodeCount d n s1
    pure (x :: xs, s2)

/-- `make_vector`: a 32-bit element count followed by that many elements
(also `PrefixedArray(Int32ul, ...)`).  Modelled from the spec:
length-prefixed collections use a 32-bit element count. -/
def make_vector {α : Type} (d : Dec α) : Dec (List α) := fun s => do
  let (n, s1) ← Int32ul s
  decodeCount d n s1

/-- `DictAdapter`'s conversion of a decoded entry sequence into an ordered
map.  Modelled from the spec: a duplicate key in any map-keyed collection is
fatal; later entries never silently shadow earlier ones. -/
def dictAdapt {κ α : Type} [DecidableEq κ] (entries : List (κ × α)) :
    Except DecodeError (List (κ × α)) :=
  if (entries.map Prod.fst).Nodup then .ok entries else .error .duplicateKey

/-- A dictionary entry (`DictElement`): key, then value. -/
def decodeEntry {κ α : Type} (key : Dec κ) (d : Dec α) : Dec (κ × α) :=
  fun s => do
    let (k, s1) ← key s
    let (v, s2) ← d s1
    pure ((k, v), s2)

/-- A keyed collection: count-prefixed entry sequence converted to an ordered
map with duplicate keys rejected (`DictAdapter(make_vector(DictElement ...))`,
also `make_dict`). -/
def decodeDict {κ α : Type} [DecidableEq κ] (key : Dec κ) (d : Dec α) :
    Dec (List (κ × α)) := fun s => do
  let (entries, s1) ← make_vector (decodeEntry key d) s
  match dictAdapt entries with
  | .ok m => pure (m, s1)
  | .error e => .error e

/-- `Char = PaddedString(1, 'ascii')`: one byte rendered as a string, a zero
byte giving the empty string (null padding is stripped). -/
def CharDec : Dec String := fun s => do
  let (b, r) ← ByteDec s
  pure (if b = 0 then "" else String.mk [Char.ofNat b], r)

/-- A decoded function-argument value. -/
inductive ArgValue where
  | str (s : String)
  | float (bits : Nat)
  | bool (b : Bool)
  | int (n : Nat)
  deriving DecidableEq

/-- A decoded `FunctionArgument`: the one-character discriminant and the
value it selected. -/
structure FunctionArgumentV where
  type : String
  value : ArgValue
  deriving DecidableEq

/-- `FunctionArgument`: a one-character discriminant selecting the value
decoder, any other discriminant failing with the unknown-argument-type
message. -/
def FunctionArgument : Dec FunctionArgumentV := fun s => do
  let (t, s1) ← CharDec s
  if t = "s" then do
    let (v, s2) ← StrId s1
    pure (⟨t, .str v⟩, s2)
  else if t = "f" then do
    let (v, s2) ← Float32l s1
    pure (⟨t, .float v⟩, s2)
  else if t = "b" then do
    let (v, s2) ← FlagDec s1
    pure (⟨t, .bool v⟩, s2)
  else if t = "i" then do
    let (v, s2) ← Int32ul s1
    pure (⟨t, .int v⟩, s2)
  else .error (.withMessage ("Unknown argument type: " ++ t))

/-- A decoded function-table entry. -/
structure FunctionEntry where
  name : String
  unk : Nat
  params : List (PKey × FunctionArgumentV)
  deriving DecidableEq

/-- One function-table entry: a name, a 16-bit value and a keyed argument
map. -/
def functionEntryDec (interns : List (Nat × String)) : Dec FunctionEntry :=
  fun s => do
    let (n, s1) ← StrId s
    let (u, s2) ← Int16ul s1
    let (ps, s3) ← decodeDict (PropertyEnum interns) FunctionArgument s2
    pure (⟨n, u, ps⟩, s3)

/-- `Functions`: a count-prefixed sequence of function entries. -/
def Functions (interns : List (Nat × String)) : Dec (List FunctionEntry) :=
  make_vector (functionEntryDec interns)

/-- One entry of the `CFXComponent` dependency list. -/
structure FxItem where
  file : String
  unk1 : Nat
  unk2 : Nat
  unk3 : Nat
  deriving DecidableEq

/-- One inner record of the `CGrabComponent` dependency list. -/
structure GrabInner where
  unk2 : Nat
  unk1 : List Nat
  deriving DecidableEq

/-- One entry of the `CGrabComponent` dependency list. -/
structure GrabItem where
  unk1 : String
  unk2 : String
  unk3 : String
  unk4 : Nat
  unk5 : Nat
  unk6 : Nat
  unk7 : Nat
  unk8 : List GrabInner
  deriving DecidableEq

/-- One entry of the first `CBillboardComponent` dependency list. -/
structure BillboardItem1 where
  id : String
  unk1 : List Nat
  unk2 : Nat
  unk3 : List Nat
  unk4 : Nat
  deriving DecidableEq

/-- One entry of the second `CBillboardComponent` dependency list. -/
structure BillboardItem2 where
  id : String
  unk1 : Nat
  unk2 : List Nat
  deriving DecidableEq

/-- The `CBillboardComponent` dependency record. -/
structure BillboardV where
  id1 : String
  unk1 : List BillboardItem1
  id2 : String
  unk2 : List BillboardItem2
  deriving DecidableEq

/-- The type-selected dependency payload: one of the fixed layouts, or the
empty variant when no listed base type matches. -/
inductive DependencyPayload where
  | fx (items : List FxItem)
  | collision (file : String) (unk : Nat)
  | grab (items : List GrabItem)
  | billboard (v : BillboardV)
  | swarm (unk1 unk2 unk3 : List String)
  | empty
  deriving DecidableEq

/-- One `CFXComponent` dependency-list entry. -/
def fxItemDec : Dec FxItem := fun t => do
  let (f, t1) ← StrId t
  let (u1, t2) ← Int32ul t1
  let (u2, t3) ← Int32ul t2
  let (u3, t4) ← ByteDec t3
  pure (FxItem.mk f u1 u2 u3, t4)

/-- The `CFXComponent` dependency layout (also aliased by
`CStandaloneFXComponent`). -/
def fxLayout : Dec DependencyPayload := fun s => do
  let (items, s1) ← make_vector fxItemDec s
  pure (.fx items, s1)

/-- The `CCollisionComponent` dependency layout. -/
def collisionLayout : Dec DependencyPayload := fun s => do
  let (f, s1) ← StrId s
  let (u, s2) ← Int16ul s1
  pure (.collision f u, s2)

/-- One inner record of a `CGrabComponent` dependency-list entry. -/
def grabInnerDec : Dec GrabInner := fun u => do
  let (b2, u1) ← Int16ul u
  let (b1, u2) ← decodeCount Float32l 8 u1
  pure (GrabInner.mk b2 b1, u2)

/-- One `CGrabComponent` dependency-list entry. -/
def grabItemDec : Dec GrabItem := fun t => do
  let (a1, t1) ← StrId t
  let (a2, t2) ← StrId t1
  let (a3, t3) ← StrId t2
  let (a4, t4) ← Float32l t3
  let (a5, t5) ← ByteDec t4
  let (a6, t6) ← ByteDec t5
  let (a7, t7) ← Int16ul t6
  let (a8, t8) ← decodeCount grabInnerDec 2 t7
  pure (GrabItem.mk a1 a2 a3 a4 a5 a6 a7 a8, t8)

/-- The `CGrabComponent` dependency layout. -/
def grabLayout : Dec DependencyPayload := fun s => do
  let (items, s1) ← make_vector grabItemDec s
  pure (.grab items, s1)

/-- One entry of the first `CBillboardComponent` dependency list. -/
def billboardItem1Dec : Dec BillboardItem1 := fun t => do
  let (idv, t1) ← StrId t
  let (a1, t2) ← decodeCount Int32ul 3 t1
  let (a2, t3) ← ByteDec t2
  let (a3, t4) ← decodeCount Int32ul 2 t3
  let (a4, t5) ← Float32l t4
  pure (BillboardItem1.mk idv a1 a2 a3 a4, t5)

/-- One entry of the second `CBillboardComponent` dependency list. -/
def billboardItem2Dec : Dec BillboardItem2 := fun t => do
  let (idv, t1) ← StrId t
  let (a1, t2) ← ByteDec t1
  let (a2, t3) ← decodeCount Int32ul 4 t2
  pure (BillboardItem2.mk idv a1 a2, t3)

/-- The `CBillboardComponent` dependency layout. -/
def billboardLayout : Dec DependencyPayload := fun s => do
  let (i1, s1) ← StrId s
  let (l1, s2) ← make_vector billboardItem1Dec s1
  let (i2, s3) ← StrId s2
  let (l2, s4) ← make_vector billboardItem2Dec s3
  pure (.billboard (BillboardV.mk i1 l1 i2 l2), s4)

/-- The `CSwarmControllerComponent` dependency layout. -/
def swarmLayout : Dec DependencyPayload := fun s => do
  let (a1, s1) ← make_vector StrId s
  let (a2, s2) ← make_vector StrId s1
  let (a3, s3) ← make_vector StrId s2
  pure (.swarm a1 a2 a3, s3)

/-- The keys of `component_dependencies` in their definition order (the five
initial entries of the dictionary, then the `CStandaloneFXComponent` alias
added after them). -/
def dependencyOrder : List String :=
  ["CFXComponent", "CCollisionComponent", "CGrabComponent",
   "CBillboardComponent", "CSwarmControllerComponent",
   "CStandaloneFXComponent"]

/-- The layout associated to each listed dependency base type
(`CStandaloneFXComponent` aliases the `CFXComponent` layout). -/
def dependencyLayout : String → Dec DependencyPayload
  | "CFXComponent" => fxLayout
  | "CCollisionComponent" => collisionLayout
  | "CGrabComponent" => grabLayout
  | "CBillboardComponent" => billboardLayout
  | "CSwarmControllerComponent" => swarmLayout
  | "CStandaloneFXComponent" => fxLayout
  | _ => fun s => .ok (.empty, s)

/-- `Dependencies`' key function `component_type`: the first listed base type
the component type is a child of, if any. -/
def component_type (reg : Registry) (t : String) : Option String :=
  dependencyOrder.find? (fun base =>
    is_child_of reg.parents (ascentFuel reg.parents) t base)

/-- `Dependencies()`: a switch on `component_type`; with no matching base the
switch has no case and no default, consuming nothing and producing the empty
payload. -/
def Dependencies (reg : Registry) (t : String) : Dec DependencyPayload :=
  fun s =>
    match component_type reg t with
    | some base => dependencyLayout base s
    | none => .ok (.empty, s)

/-- An extra-property value: the tagged union selected by the entry's type
tag. -/
inductive ExtraValue where
  | bool (b : Bool)
  | str (s : String)
  deriving DecidableEq

/-- A decoded extra-property entry: the full type-tag string and the value it
selected. -/
structure ExtraEntryV where
  type : String
  value : ExtraValue
  deriving DecidableEq

/-- One extra-property entry body: a full type-tag string switching between
the `bool` and `string` value decoders, any other tag failing with the
unknown-argument-type message. -/
def decodeExtraEntry : Dec ExtraEntryV := fun s => do
  let (t, s1) ← StrId s
  if t = "bool" then do
    let (v, s2) ← FlagDec s1
    pure (⟨t, .bool v⟩, s2)
  else if t = "string" then do
    let (v, s2) ← StrId s1
    pure (⟨t, .str v⟩, s2)
  else .error (.withMessage ("Unknown argument type: " ++ t))

/-- The extra-property map of a component: a keyed collection of tagged
entries. -/
def decodeExtraMap (interns : List (Nat × String)) :
    Dec (List (PKey × ExtraEntryV)) :=
  decodeDict (PropertyEnum interns) decodeExtraEntry

/-- A decoded FieldBlock: the empty block (zero declared length), or the two
interned-key placeholders followed by the schema-decoded fields. -/
inductive FieldBlock where
  | empty
  | value (empty_string root : PKey) (fields : List Nat)
  deriving DecidableEq

/-- The inner content of a nonzero-length FieldBlock: two interned-key
placeholders, then the fields of the schema resolved for the component's
type; a resolved schema name missing from the schema table fails with the
unknown-component-type message naming the originally requested type. -/
def decodeFieldsInner (reg : Registry) (type_name : String) :
    Dec FieldBlock := fun s => do
  let (es, s1) ← PropertyEnum reg.interns s
  let (rt, s2) ← PropertyEnum reg.interns s1
  match find_charclass_for_type reg (ascentFuel reg.parents) type_name with
  | .error e => .error e
  | .ok name =>
    match assocFind reg.fieldtypes name with
    | some d => do
      let (v, s3) ← d s2
      pure (.value es rt v, s3)
    | none => .error (.withMessage ("Unknown component type: " ++ type_name))

/-- `PrefixedAllowZeroLen` applied to the FieldBlock body.  Modelled from the
spec: a 32-bit byte-length prefix; zero length yields the empty block as a
normal value without consulting any schema; a nonzero length must be exactly
consumed by the inner content — under-consumption (bytes of the declared
region left over) and over-consumption (the inner content reading past the
declared region, which is the only way a stream failure can arise inside the
bounded region) are fatal framing violations. -/
def decodeFields (reg : Registry) (type_name : String) : Dec FieldBlock :=
  fun s => do
    let (len, s1) ← Int32ul s
    if len = 0 then pure (.empty, s1)
    else do
      let (chunk, s2) ← readBytes len s1
      match decodeFieldsInner reg type_name chunk with
      | .ok (v, rest) =>
        if rest = [] then pure (v, s2) else .error .formatViolation
      | .error .streamError => .error .formatViolation
      | .error e => .error e

/-- A decoded component. -/
structure Component where
  type : String
  unk_1 : List Nat
  fields : FieldBlock
  extra_fields : Option (List (PKey × ExtraEntryV))
  functions : List FunctionEntry
  dependencies : DependencyPayload
  deriving DecidableEq

/-- The `extra_fields` part of a component: present (as a keyed collection)
iff the component's type is a child of `CComponent`, otherwise absent and
consuming nothing (`construct.If`). -/
def decodeExtraPart (reg : Registry) (t : String) :
    Dec (Option (List (PKey × ExtraEntryV))) := fun s =>
  if is_child_of reg.parents (ascentFuel reg.parents) t "CComponent" then do
    let (m, s1) ← decodeExtraMap reg.interns s
    pure (some m, s1)
  else .ok (none, s)

/-- `Component`: type name, two opaque 32-bit values, the FieldBlock, the
conditional extra-property map, the function table and the dependency
payload, in stream order. -/
def decodeComponent (reg : Registry) : Dec Component := fun s => do
  let (t, s1) ← StrId s
  let (u, s2) ← decodeCount Int32ul 2 s1
  let (f, s3) ← decodeFields reg t s2
  let (ex, s4) ← decodeExtraPart reg t s3
  let (fns, s5) ← Functions reg.interns s4
  let (deps, s6) ← Dependencies reg t s5
  pure (Component.mk t u f ex fns deps, s6)

/-- A decoded `CCharClass` body. -/
structure CCharClassV where
  model_name : String
  unk_1 : Nat
  unk_2 : Nat
  unk_3 : Nat
  sub_actors : List String
  unk_4 : List Nat
  unk_5 : Nat
  unk_6 : String
  unk_7 : Nat
  components : List (String × Component)
  binaries : List String
  sources : List (String × Nat)
  deriving DecidableEq

/-- A decoded `CActorDef` body. -/
structure CActorDefV where
  unk_1 : Nat
  unk_2 : Nat
  unk_3 : Nat
  sub_actors : List String
  unk_4 : String
  components : List (String × Component)
  binaries : List String
  sources : List (String × Nat)
  deriving DecidableEq

/-- The definition body: one of the two variants. -/
inductive DefinitionV where
  | charClass (v : CCharClassV)
  | actorDef (v : CActorDefV)
  deriving DecidableEq

/-- One `(name, flag)` source reference (`StrId >> Byte`). -/
def decodeSource : Dec (String × Nat) := fun s => do
  let (n, s1) ← StrId s
  let (b, s2) ← ByteDec s1
  pure ((n, b), s2)

/-- `CCharClass`: model name, opaque scalars, sub-actors, a fixed 9-float
array, a required magic constant `0xFFFFFFFF` (mismatch immediately fatal),
further scalars, then the component map, binaries and sources. -/
def CCharClass (reg : Registry) : Dec DefinitionV := fun s => do
  let (mn, s1) ← StrId s
  let (u1, s2) ← Int16ul s1
  let (u2, s3) ← Int32ul s2
  let (u3, s4) ← Int16ul s3
  let (sa, s5) ← make_vector StrId s4
  let (u4, s6) ← decodeCount Float32l 9 s5
  let (magic, s7) ← Int32ul s6
  if magic = 0xFFFFFFFF then do
    let (u5, s8) ← ByteDec s7
    let (u6, s9) ← StrId s8
    let (u7, s10) ← ByteDec s9
    let (comps, s11) ← decodeDict StrId (decodeComponent reg) s10
    let (bins, s12) ← make_vector StrId s11
    let (srcs, s13) ← make_vector decodeSource s12
    pure (.charClass
      (CCharClassV.mk mn u1 u2 u3 sa u4 u5 u6 u7 comps bins srcs), s13)
  else .error .formatViolation

/-- `CActorDef`: opaque scalars, sub-actors, a string, then the component
map, binaries and sources. -/
def CActorDef (reg : Registry) : Dec DefinitionV := fun s => do
  let (u1, s1) ← Int16ul s
  let (u2, s2) ← Int32ul s1
  let (u3, s3) ← Int16ul s2
  let (sa, s4) ← make_vector StrId s3
  let (u4, s5) ← StrId s4
  let (comps, s6) ← decodeDict StrId (decodeComponent reg) s5
  let (bins, s7) ← make_vector StrId s6
  let (srcs, s8) ← make_vector decodeSource s7
  pure (.actorDef (CActorDefV.mk u1 u2 u3 sa u4 comps bins srcs), s8)

/-- The decoded resource. -/
structure BmsadV where
  name : String
  type : String
  property : DefinitionV
  deriving DecidableEq

/-- `property_types`: the exact-match dispatch table from the decoded type
string to the definition body decoder. -/
def property_types (reg : Registry) (t : String) :
    Option (Dec DefinitionV) :=
  if t = "CCharClass" then some (CCharClass reg)
  else if t = "CActorDef" then some (CActorDef reg)
  else none

/-- The byte values of the fixed 4-byte magic tag `MSAD`. -/
def msadMagic : List Nat := [77, 83, 65, 68]

/-- The resource envelope before the terminated check: the 4-byte magic, the
exact version constant, the name and type strings, and the body dispatched on
the type (an unmatched type failing with the unknown-property-type
message). -/
def envelopeDec (reg : Registry) : Dec BmsadV := fun s => do
  let (m, s1) ← readBytes 4 s
  if m = msadMagic then do
    let (v, s2) ← Int32ul s1
    if v = 0x0200000F then do
      let (nm, s3) ← StrId s2
      let (ty, s4) ← StrId s3
      match property_types reg ty with
      | some d => do
        let (p, s5) ← d s4
        pure (BmsadV.mk nm ty p, s5)
      | none => .error (.withMessage ("Unknown property type: " ++ ty))
    else .error .formatViolation
  else .error .formatViolation

/-- `BMSAD`: the envelope followed by `Terminated` — after the definition
body is fully decoded the stream must be exactly exhausted, trailing bytes
being fatal. -/
def BMSAD (reg : Registry) : Dec BmsadV := fun s => do
  let (v, s5) ← envelopeDec reg s
  match s5 with
  | [] => pure (v, [])
  | _ :: _ => .error .formatViolation

deriving instance DecidableEq for Except

/-- The byte encoding of a zero-terminated ASCII string. -/
def strBytes (s : String) : List Nat :=
  s.data.map Char.toNat ++ [0]

/-- A registry with empty tables. -/
def trivialReg : Registry := ⟨[], [], []⟩

/-- The envelope and empty `CActorDef` body of the end-to-end example, up to
the type string supplied by the caller: magic, version `0x0200000F`, name
`test`, the given type string, three zero scalars, an empty sub-actor list,
an empty string, and empty component, binary and source collections. -/
def emptyActorDefStream (ty : String) : List Nat :=
  msadMagic ++ [0x0F, 0, 0, 2] ++ strBytes "test" ++ strBytes ty ++
    [0, 0] ++ [0, 0, 0, 0] ++ [0, 0] ++ [0, 0, 0, 0] ++ [0] ++
    [0, 0, 0, 0] ++ [0, 0, 0, 0] ++ [0, 0, 0, 0]

/-- The decoded value of the end-to-end example: name `test`, type
`CActorDef`, and an `CActorDef` body with zero scalars and all collections
empty. -/
def expectedEmptyActorDef : BmsadV :=
  ⟨"test", "CActorDef", .actorDef ⟨0, 0, 0, [], "", [], [], []⟩⟩

/-- A synthetic hierarchy registry where `CFoo` has parent `CBar` and `CBar`
has no registered entry, with no schema registered. -/
def staleReg : Registry := ⟨[("CFoo", "CBar")], [], []⟩

/-- A synthetic hierarchy registry whose parent table is cyclic. -/
def cyclicReg : Registry := ⟨[("CA", "CB"), ("CB", "CA")], [], []⟩

/-- A synthetic hierarchy registry where `CMyComp` is a child of the listed
dependency base `CCollisionComponent`, which is itself a child of the listed
dependency base `CFXComponent` — so both listed bases match `CMyComp`. -/
def twoBaseReg : Registry :=
  ⟨[("CCollisionComponent", "CFXComponent"),
    ("CMyComp", "CCollisionComponent")], [], []⟩

/-- A registry with no hierarchy entries whose schema table registers
`CCharClassFoo` as a one-byte field decoder. -/
def oneByteSchemaReg : Registry :=
  ⟨[], [("CCharClassFoo", readBytes 1)], []⟩

/-- A registry with no hierarchy entries whose schema table registers
`CCharClassWeird` as a zero-byte field decoder. -/
def weirdSchemaReg : Registry :=
  ⟨[], [("CCharClassWeird", fun s => .ok ([], s))], []⟩

/-- A minimal component record of type `CComponent`: the type string, two
zero 32-bit values, a zero-length FieldBlock, an empty extra-property map
(the type is a child of `CComponent` by reflexivity) and an empty function
table; the type matches no dependency base, so the payload is empty and
consumes nothing. -/
def componentStreamC3 : List Nat :=
  strBytes "CComponent" ++ List.replicate 8 0 ++ [0, 0, 0, 0] ++
    [0, 0, 0, 0] ++ [0, 0, 0, 0]

/-- A decoder is prefix-stable when a successful decode is unaffected by
extra bytes appended after the region it consumes. -/
def PrefixStable {α : Type} (d : Dec α) : Prop :=
  ∀ s v r ext, d s = .ok (v, r) → d (s ++ ext) = .ok (v, r ++ ext)

/-- The schema name the resolution derives from a visited type: the root
type's fixed associated name, otherwise the `CCharClass` candidate. -/
def candidateName (t : String) : String :=
  if t = "CActorComponent" then "CActorComponentDef"
  else "CCharClass" ++ t.drop 1

/-- Inversion of a successful `Except` bind. -/
theorem bind_ok {α β : Type} {x : Except DecodeError α}
    {f : α → Except DecodeError β} {b : β}
    (h : x >>= f = .ok b) : ∃ a, x = .ok a ∧ f a = .ok b := by
  cases x with
  | ok a => exact ⟨a, rfl, h⟩
  | error e => exact absurd h (by simp [Bind.bind, Except.bind])

/-- Reading exactly the length of a known prefix returns that prefix. -/
theorem readBytes_append (l rest : List Nat) :
    readBytes l.length (l ++ rest) = .ok (l, rest) := by
  simp [readBytes, List.take_left, List.drop_left]

/-- Binding a success reduces to the continuation. -/
theorem okBind {α β : Type} (a : α) (f : α → Except DecodeError β) :
    (Except.ok a >>= f) = f a := rfl

/-- `pure` is `ok`. -/
theorem pureOk {α : Type} (a : α) :
    (pure a : Except DecodeError α) = .ok a := rfl

/-- Inversion of a final `pure` step of a decoder. -/
theorem ok_pair_inv {α : Type} {a v : α} {r1 r : List Nat}
    (h : (pure (a, r1) : Except DecodeError (α × List Nat)) = .ok (v, r)) :
    a = v ∧ r1 = r := by
  simpa [pureOk, Except.ok.injEq, Prod.mk.injEq] using h

/-- Reading a byte count is prefix-stable. -/
theorem ps_readBytes (n : Nat) : PrefixStable (readBytes n) := by
  intro s v r ext h
  simp only [readBytes] at h ⊢
  split at h
  · rename_i hle
    simp only [Except.ok.injEq, Prod.mk.injEq] at h
    obtain ⟨rfl, rfl⟩ := h
    rw [if_pos (by simp; omega)]
    simp [List.take_append_eq_append_take, List.drop_append_eq_append_drop,
      Nat.sub_eq_zero_of_le hle]
  · exact absurd h (by simp)

/-- Reading one byte is prefix-stable. -/
theorem ps_ByteDec : PrefixStable ByteDec := by
  intro s v r ext h
  cases s with
  | nil => exact absurd h (by simp [ByteDec])
  | cons b rest =>
    simp only [ByteDec, Except.ok.injEq, Prod.mk.injEq] at h
    obtain ⟨rfl, rfl⟩ := h
    rfl

/-- Zero-terminated string reading is prefix-stable. -/
theorem ps_cStringChars : PrefixStable cStringChars := by
  intro s
  induction s with
  | nil => intro v r ext h; exact absurd h (by simp [cStringChars])
  | cons b rest ih =>
    intro v r ext h
    rw [List.cons_append]
    simp only [cStringChars] at h ⊢
    split at h
    · rename_i hb
      rw [if_pos hb]
      simp only [Except.ok.injEq, Prod.mk.injEq] at h
      obtain ⟨rfl, rfl⟩ := h
      rfl
    · rename_i hb
      rw [if_neg hb]
      obtain ⟨⟨str, r1⟩, h1, h2⟩ := bind_ok h
      rw [ih str r1 ext h1, okBind]
      obtain ⟨rfl, rfl⟩ := ok_pair_inv h2
      rfl

/-- `StrId` is prefix-stable. -/
theorem ps_StrId : PrefixStable StrId := ps_cStringChars

/-- `Int32ul` is prefix-stable. -/
theorem ps_Int32ul : PrefixStable Int32ul := by
  intro s v r ext h
  simp only [Int32ul] at h ⊢
  obtain ⟨⟨bs, r1⟩, h1, h2⟩ := bind_ok h
  rw [ps_readBytes 4 s bs r1 ext h1, okBind]
  obtain ⟨rfl, rfl⟩ := ok_pair_inv h2
  rfl

/-- `Int16ul` is prefix-stable. -/
theorem ps_Int16ul : PrefixStable Int16ul := by
  intro s v r ext h
  simp only [Int16ul] at h ⊢
  obtain ⟨⟨bs, r1⟩, h1, h2⟩ := bind_ok h
  rw [ps_readBytes 2 s bs r1 ext h1, okBind]
  obtain ⟨rfl, rfl⟩ := ok_pair_inv h2
  rfl

/-- `Flag` is prefix-stable. -/
theorem ps_FlagDec : PrefixStable FlagDec := by
  intro s v r ext h
  simp only [FlagDec] at h ⊢
  obtain ⟨⟨b, r1⟩, h1, h2⟩ := bind_ok h
  rw [ps_ByteDec s b r1 ext h1, okBind]
  obtain ⟨rfl, rfl⟩ := ok_pair_inv h2
  rfl

/-- `Float32l` is prefix-stable. -/
theorem ps_Float32l : PrefixStable Float32l := ps_Int32ul

/-- The one-character discriminant reader is prefix-stable. -/
theorem ps_CharDec : PrefixStable CharDec := by
  intro s v r ext h
  simp only [CharDec] at h ⊢
  obtain ⟨⟨b, r1⟩, h1, h2⟩ := bind_ok h
  rw [ps_ByteDec s b r1 ext h1, okBind]
  obtain ⟨rfl, rfl⟩ := ok_pair_inv h2
  rfl

/-- `PropertyEnum` is prefix-stable. -/
theorem ps_PropertyEnum (interns : List (Nat × String)) :
    PrefixStable (PropertyEnum interns) := by
  intro s v r ext h
  simp only [PropertyEnum] at h ⊢
  obtain ⟨⟨bs, r1⟩, h1, h2⟩ := bind_ok h
  rw [ps_readBytes 8 s bs r1 ext h1, okBind]
  split at h2
  · rename_i n hm
    rw [hm]
    obtain ⟨rfl, rfl⟩ := ok_pair_inv h2
    rfl
  · rename_i hm
    rw [hm]
    obtain ⟨rfl, rfl⟩ := ok_pair_inv h2
    rfl

/-- A fixed-count sequence of a prefix-stable decoder is prefix-stable. -/
theorem ps_decodeCount {α : Type} {d : Dec α} (hd : PrefixStable d) :
    ∀ n, PrefixStable (decodeCount d n) := by
  intro n
  induction n with
  | zero =>
    intro s v r ext h
    simp only [decodeCount] at h ⊢
    simp only [Except.ok.injEq, Prod.mk.injEq] at h
    obtain ⟨rfl, rfl⟩ := h
    rfl
  | succ n ih =>
    intro s v r ext h
    simp only [decodeCount] at h ⊢
    obtain ⟨⟨x, s1⟩, h1, h⟩ := bind_ok h
    obtain ⟨⟨xs, s2⟩, h2, h3⟩ := bind_ok h
    rw [hd s x s1 ext h1, okBind, ih s1 xs s2 ext h2, okBind]
    obtain ⟨rfl, rfl⟩ := ok_pair_inv h3
    rfl

/-- A count-prefixed sequence of a prefix-stable decoder is prefix-stable. -/
theorem ps_make_vector {α : Type} {d : Dec α} (hd : PrefixStable d) :
    PrefixStable (make_vector d) := by
  intro s v r ext h
  simp only [make_vector] at h ⊢
  obtain ⟨⟨n, s1⟩, h1, h2⟩ := bind_ok h
  rw [ps_Int32ul s n s1 ext h1, okBind]
  exact ps_decodeCount hd n s1 v r ext h2

/-- A dictionary entry of prefix-stable key and value decoders is
prefix-stable. -/
theorem ps_decodeEntry {κ α : Type} {key : Dec κ} {d : Dec α}
    (hk : PrefixStable key) (hd : PrefixStable d) :
    PrefixStable (decodeEntry key d) := by
  intro s v r ext h
  simp only [decodeEntry] at h ⊢
  obtain ⟨⟨k, s1⟩, h1, h⟩ := bind_ok h
  obtain ⟨⟨x, s2⟩, h2, h3⟩ := bind_ok h
  rw [hk s k s1 ext h1, okBind, hd s1 x s2 ext h2, okBind]
  obtain ⟨rfl, rfl⟩ := ok_pair_inv h3
  rfl

/-- A keyed collection of prefix-stable decoders is prefix-stable. -/
theorem ps_decodeDict {κ α : Type} [DecidableEq κ] {key : Dec κ} {d : Dec α}
    (hk : PrefixStable key) (hd : PrefixStable d) :
    PrefixStable (decodeDict key d) := by
  intro s v r ext h
  simp only [decodeDict] at h ⊢
  obtain ⟨⟨entries, s1⟩, h1, h2⟩ := bind_ok h
  rw [ps_make_vector (ps_decodeEntry hk hd) s entries s1 ext h1, okBind]
  split at h2
  · rename_i m hm
    rw [hm]
    obtain ⟨rfl, rfl⟩ := ok_pair_inv h2
    rfl
  · exact absurd h2 (by simp)

/-- `FunctionArgument` is prefix-stable. -/
theorem ps_FunctionArgument : PrefixStable FunctionArgument := by
  intro s v r ext h
  simp only [FunctionArgument] at h ⊢
  obtain ⟨⟨t, s1⟩, h1, h⟩ := bind_ok h
  rw [ps_CharDec s t s1 ext h1, okBind]
  split_ifs at h ⊢
  · obtain ⟨⟨x, s2⟩, h2, h3⟩ := bind_ok h
    rw [ps_StrId s1 x s2 ext h2, okBind]
    obtain ⟨rfl, rfl⟩ := ok_pair_inv h3
    rfl
  · obtain ⟨⟨x, s2⟩, h2, h3⟩ := bind_ok h
    rw [ps_Float32l s1 x s2 ext h2, okBind]
    obtain ⟨rfl, rfl⟩ := ok_pair_inv h3
    rfl
  · obtain ⟨⟨x, s2⟩, h2, h3⟩ := bind_ok h
    rw [ps_FlagDec s1 x s2 ext h2, okBind]
    obtain ⟨rfl, rfl⟩ := ok_pair_inv h3
    rfl
  · obtain ⟨⟨x, s2⟩, h2, h3⟩ := bind_ok h
    rw [ps_Int32ul s1 x s2 ext h2, okBind]
    obtain ⟨rfl, rfl⟩ := ok_pair_inv h3
    rfl

/-- A function-table entry decoder is prefix-stable. -/
theorem ps_functionEntryDec (interns : List (Nat × String)) :
    PrefixStable (functionEntryDec interns) := by
  intro s v r ext h
  simp only [functionEntryDec] at h ⊢
  obtain ⟨⟨n, s1⟩, h1, h⟩ := bind_ok h
  obtain ⟨⟨u, s2⟩, h2, h⟩ := bind_ok h
  obtain ⟨⟨ps, s3⟩, h3, h4⟩ := bind_ok h
  rw [ps_StrId s n s1 ext h1, okBind, ps_Int16ul s1 u s2 ext h2, okBind,
    ps_decodeDict (ps_PropertyEnum interns) ps_FunctionArgument s2 ps s3 ext
      h3, okBind]
  obtain ⟨rfl, rfl⟩ := ok_pair_inv h4
  rfl

/-- `Functions` is prefix-stable. -/
theorem ps_Functions (interns : List (Nat × String)) :
    PrefixStable (Functions interns) :=
  ps_make_vector (ps_functionEntryDec interns)

/-- The extra-property entry decoder is prefix-stable. -/
theorem ps_decodeExtraEntry : PrefixStable decodeExtraEntry := by
  intro s v r ext h
  simp only [decodeExtraEntry] at h ⊢
  obtain ⟨⟨t, s1⟩, h1, h⟩ := bind_ok h
  rw [ps_StrId s t s1 ext h1, okBind]
  split_ifs at h ⊢
  · obtain ⟨⟨x, s2⟩, h2, h3⟩ := bind_ok h
    rw [ps_FlagDec s1 x s2 ext h2, okBind]
    obtain ⟨rfl, rfl⟩ := ok_pair_inv h3
    rfl
  · obtain ⟨⟨x, s2⟩, h2, h3⟩ := bind_ok h
    rw [ps_StrId s1 x s2 ext h2, okBind]
    obtain ⟨rfl, rfl⟩ := ok_pair_inv h3
    rfl

/-- The extra-property map decoder is prefix-stable. -/
theorem ps_decodeExtraMap (interns : List (Nat × String)) :
    PrefixStable (decodeExtraMap interns) :=
  ps_decodeDict (ps_PropertyEnum interns) ps_decodeExtraEntry

/-- The conditional extra-property part of a component is prefix-stable. -/
theorem ps_decodeExtraPart (reg : Registry) (t : String) :
    PrefixStable (decodeExtraPart reg t) := by
  intro s v r ext h
  simp only [decodeExtraPart] at h ⊢
  split_ifs at h ⊢
  · obtain ⟨⟨m, s1⟩, h1, h2⟩ := bind_ok h
    rw [ps_decodeExtraMap reg.interns s m s1 ext h1, okBind]
    obtain ⟨rfl, rfl⟩ := ok_pair_inv h2
    rfl
  · simp only [Except.ok.injEq, Prod.mk.injEq] at h
    obtain ⟨rfl, rfl⟩ := h
    rfl

/-- The FieldBlock decoder is prefix-stable: the declared region is carved
out of the stream before the inner content is decoded, so appended bytes are
never touched. -/
theorem ps_decodeFields (reg : Registry) (t : String) :
    PrefixStable (decodeFields reg t) := by
  intro s v r ext h
  simp only [decodeFields] at h ⊢
  obtain ⟨⟨len, s1⟩, h1, h⟩ := bind_ok h
  rw [ps_Int32ul s len s1 ext h1, okBind]
  split_ifs at h ⊢
  · obtain ⟨rfl, rfl⟩ := ok_pair_inv h
    rfl
  · obtain ⟨⟨chunk, s2⟩, h2, h3⟩ := bind_ok h
    rw [ps_readBytes len s1 chunk s2 ext h2, okBind]
    split at h3
    · rename_i fv frest hm
      rw [hm]
      split_ifs at h3 with hrest
      subst hrest
      obtain ⟨rfl, rfl⟩ := ok_pair_inv h3
      rfl
    · exact absurd h3 (by simp)
    · exact absurd h3 (by simp)

/-- Every fixed dependency layout is prefix-stable. -/
theorem ps_fxLayout : PrefixStable fxLayout := by
  intro s v r ext h
  simp only [fxLayout] at h ⊢
  obtain ⟨⟨items, s1⟩, h1, h2⟩ := bind_ok h
  have hel : PrefixStable fxItemDec := by
    intro t w q ext2 hw
    simp only [fxItemDec] at hw ⊢
    obtain ⟨⟨f, t1⟩, g1, hw⟩ := bind_ok hw
    obtain ⟨⟨u1, t2⟩, g2, hw⟩ := bind_ok hw
    obtain ⟨⟨u2, t3⟩, g3, hw⟩ := bind_ok hw
    obtain ⟨⟨u3, t4⟩, g4, g5⟩ := bind_ok hw
    rw [ps_StrId t f t1 ext2 g1, okBind, ps_Int32ul t1 u1 t2 ext2 g2, okBind,
      ps_Int32ul t2 u2 t3 ext2 g3, okBind, ps_ByteDec t3 u3 t4 ext2 g4,
      okBind]
    obtain ⟨rfl, rfl⟩ := ok_pair_inv g5
    rfl
  rw [ps_make_vector hel s items s1 ext h1, okBind]
  obtain ⟨rfl, rfl⟩ := ok_pair_inv h2
  rfl

/-- The collision dependency layout is prefix-stable. -/
theorem ps_collisionLayout : PrefixStable collisionLayout := by
  intro s v r ext h
  simp only [collisionLayout] at h ⊢
  obtain ⟨⟨f, s1⟩, h1, h⟩ := bind_ok h
  obtain ⟨⟨u, s2⟩, h2, h3⟩ := bind_ok h
  rw [ps_StrId s f s1 ext h1, okBind, ps_Int16ul s1 u s2 ext h2, okBind]
  obtain ⟨rfl, rfl⟩ := ok_pair_inv h3
  rfl

/-- The grab dependency layout is prefix-stable. -/
theorem ps_grabLayout : PrefixStable grabLayout := by
  have hinner : PrefixStable grabInnerDec := by
    intro u w q ext2 hw
    simp only [grabInnerDec] at hw ⊢
    obtain ⟨⟨b2, u1⟩, g1, hw⟩ := bind_ok hw
    obtain ⟨⟨b1, u2⟩, g2, g3⟩ := bind_ok hw
    rw [ps_Int16ul u b2 u1 ext2 g1, okBind,
      ps_decodeCount ps_Float32l 8 u1 b1 u2 ext2 g2, okBind]
    obtain ⟨rfl, rfl⟩ := ok_pair_inv g3
    rfl
  have hel : PrefixStable grabItemDec := by
    intro t w q ext2 hw
    simp only [grabItemDec] at hw ⊢
    obtain ⟨⟨a1, t1⟩, g1, hw⟩ := bind_ok hw
    obtain ⟨⟨a2, t2⟩, g2, hw⟩ := bind_ok hw
    obtain ⟨⟨a3, t3⟩, g3, hw⟩ := bind_ok hw
    obtain ⟨⟨a4, t4⟩, g4, hw⟩ := bind_ok hw
    obtain ⟨⟨a5, t5⟩, g5, hw⟩ := bind_ok hw
    obtain ⟨⟨a6, t6⟩, g6, hw⟩ := bind_ok hw
    obtain ⟨⟨a7, t7⟩, g7, hw⟩ := bind_ok hw
    obtain ⟨⟨a8, t8⟩, g8, g9⟩ := bind_ok hw
    rw [ps_StrId t a1 t1 ext2 g1, okBind, ps_StrId t1 a2 t2 ext2 g2, okBind,
      ps_StrId t2 a3 t3 ext2 g3, okBind, ps_Float32l t3 a4 t4 ext2 g4,
      okBind, ps_ByteDec t4 a5 t5 ext2 g5, okBind,
      ps_ByteDec t5 a6 t6 ext2 g6, okBind, ps_Int16ul t6 a7 t7 ext2 g7,
      okBind, ps_decodeCount hinner 2 t7 a8 t8 ext2 g8, okBind]
    obtain ⟨rfl, rfl⟩ := ok_pair_inv g9
    rfl
  intro s v r ext h
  simp only [grabLayout] at h ⊢
  obtain ⟨⟨items, s1⟩, h1, h2⟩ := bind_ok h
  rw [ps_make_vector hel s items s1 ext h1, okBind]
  obtain ⟨rfl, rfl⟩ := ok_pair_inv h2
  rfl

/-- The billboard dependency layout is prefix-stable. -/
theorem ps_billboardLayout : PrefixStable billboardLayout := by
  have hel1 : PrefixStable billboardItem1Dec := by
    intro t w q ext2 hw
    simp only [billboardItem1Dec] at hw ⊢
    obtain ⟨⟨idv, t1⟩, g1, hw⟩ := bind_ok hw
    obtain ⟨⟨a1, t2⟩, g2, hw⟩ := bind_ok hw
    obtain ⟨⟨a2, t3⟩, g3, hw⟩ := bind_ok hw
    obtain ⟨⟨a3, t4⟩, g4, hw⟩ := bind_ok hw
    obtain ⟨⟨a4, t5⟩, g5, g6⟩ := bind_ok hw
    rw [ps_StrId t idv t1 ext2 g1, okBind,
      ps_decodeCount ps_Int32ul 3 t1 a1 t2 ext2 g2, okBind,
      ps_ByteDec t2 a2 t3 ext2 g3, okBind,
      ps_decodeCount ps_Int32ul 2 t3 a3 t4 ext2 g4, okBind,
      ps_Float32l t4 a4 t5 ext2 g5, okBind]
    obtain ⟨rfl, rfl⟩ := ok_pair_inv g6
    rfl
  have hel2 : PrefixStable billboardItem2Dec := by
    intro t w q ext2 hw
    simp only [billboardItem2Dec] at hw ⊢
    obtain ⟨⟨idv, t1⟩, g1, hw⟩ := bind_ok hw
    obtain ⟨⟨a1, t2⟩, g2, hw⟩ := bind_ok hw
    obtain ⟨⟨a2, t3⟩, g3, g4⟩ := bind_ok hw
    rw [ps_StrId t idv t1 ext2 g1, okBind, ps_ByteDec t1 a1 t2 ext2 g2,
      okBind, ps_decodeCount ps_Int32ul 4 t2 a2 t3 ext2 g3, okBind]
    obtain ⟨rfl, rfl⟩ := ok_pair_inv g4
    rfl
  intro s v r ext h
  simp only [billboardLayout] at h ⊢
  obtain ⟨⟨i1, s1⟩, h1, h⟩ := bind_ok h
  obtain ⟨⟨l1, s2⟩, h2, h⟩ := bind_ok h
  obtain ⟨⟨i2, s3⟩, h3, h⟩ := bind_ok h
  obtain ⟨⟨l2, s4⟩, h4, h5⟩ := bind_ok h
  rw [ps_StrId s i1 s1 ext h1, okBind, ps_make_vector hel1 s1 l1 s2 ext h2,
    okBind, ps_StrId s2 i2 s3 ext h3, okBind,
    ps_make_vector hel2 s3 l2 s4 ext h4, okBind]
  obtain ⟨rfl, rfl⟩ := ok_pair_inv h5
  rfl

/-- The swarm-controller dependency layout is prefix-stable. -/
theorem ps_swarmLayout : PrefixStable swarmLayout := by
  intro s v r ext h
  simp only [swarmLayout] at h ⊢
  obtain ⟨⟨a1, s1⟩, h1, h⟩ := bind_ok h
  obtain ⟨⟨a2, s2⟩, h2, h⟩ := bind_ok h
  obtain ⟨⟨a3, s3⟩, h3, h4⟩ := bind_ok h
  rw [ps_make_vector ps_StrId s a1 s1 ext h1, okBind,
    ps_make_vector ps_StrId s1 a2 s2 ext h2, okBind,
    ps_make_vector ps_StrId s2 a3 s3 ext h3, okBind]
  obtain ⟨rfl, rfl⟩ := ok_pair_inv h4
  rfl

/-- Every dependency layout, looked up by base name, is prefix-stable. -/
theorem ps_dependencyLayout (b : String) :
    PrefixStable (dependencyLayout b) := by
  unfold dependencyLayout
  split
  · exact ps_fxLayout
  · exact ps_collisionLayout
  · exact ps_grabLayout
  · exact ps_billboardLayout
  · exact ps_swarmLayout
  · exact ps_fxLayout
  · intro s v r ext h
    simp only [Except.ok.injEq, Prod.mk.injEq] at h
    obtain ⟨rfl, rfl⟩ := h
    rfl

/-- The dependency-payload decoder is prefix-stable. -/
theorem ps_Dependencies (reg : Registry) (t : String) :
    PrefixStable (Dependencies reg t) := by
  intro s v r ext h
  simp only [Dependencies] at h ⊢
  split at h
  · rename_i base hm
    exact ps_dependencyLayout base s v r ext h
  · simp only [Except.ok.injEq, Prod.mk.injEq] at h
    obtain ⟨rfl, rfl⟩ := h
    rfl

/-- The component decoder is prefix-stable. -/
theorem ps_decodeComponent (reg : Registry) :
    PrefixStable (decodeComponent reg) := by
  intro s v r ext h
  simp only [decodeComponent] at h ⊢
  obtain ⟨⟨t, s1⟩, h1, h⟩ := bind_ok h
  obtain ⟨⟨u, s2⟩, h2, h⟩ := bind_ok h
  obtain ⟨⟨f, s3⟩, h3, h⟩ := bind_ok h
  obtain ⟨⟨ex, s4⟩, h4, h⟩ := bind_ok h
  obtain ⟨⟨fns, s5⟩, h5, h⟩ := bind_ok h
  obtain ⟨⟨deps, s6⟩, h6, h7⟩ := bind_ok h
  rw [ps_StrId s t s1 ext h1, okBind,
    ps_decodeCount ps_Int32ul 2 s1 u s2 ext h2, okBind,
    ps_decodeFields reg t s2 f s3 ext h3, okBind,
    ps_decodeExtraPart reg t s3 ex s4 ext h4, okBind,
    ps_Functions reg.interns s4 fns s5 ext h5, okBind,
    ps_Dependencies reg t s5 deps s6 ext h6, okBind]
  obtain ⟨rfl, rfl⟩ := ok_pair_inv h7
  rfl

/-- The source-reference decoder is prefix-stable. -/
theorem ps_decodeSource : PrefixStable decodeSource := by
  intro s v r ext h
  simp only [decodeSource] at h ⊢
  obtain ⟨⟨n, s1⟩, h1, h⟩ := bind_ok h
  obtain ⟨⟨b, s2⟩, h2, h3⟩ := bind_ok h
  rw [ps_StrId s n s1 ext h1, okBind, ps_ByteDec s1 b s2 ext h2, okBind]
  obtain ⟨rfl, rfl⟩ := ok_pair_inv h3
  rfl

/-- The `CActorDef` body decoder is prefix-stable. -/
theorem ps_CActorDef (reg : Registry) : PrefixStable (CActorDef reg) := by
  intro s v r ext h
  simp only [CActorDef] at h ⊢
  obtain ⟨⟨u1, s1⟩, h1, h⟩ := bind_ok h
  obtain ⟨⟨u2, s2⟩, h2, h⟩ := bind_ok h
  obtain ⟨⟨u3, s3⟩, h3, h⟩ := bind_ok h
  obtain ⟨⟨sa, s4⟩, h4, h⟩ := bind_ok h
  obtain ⟨⟨u4, s5⟩, h5, h⟩ := bind_ok h
  obtain ⟨⟨comps, s6⟩, h6, h⟩ := bind_ok h
  obtain ⟨⟨bins, s7⟩, h7, h⟩ := bind_ok h
  obtain ⟨⟨srcs, s8⟩, h8, h9⟩ := bind_ok h
  rw [ps_Int16ul s u1 s1 ext h1, okBind, ps_Int32ul s1 u2 s2 ext h2, okBind,
    ps_Int16ul s2 u3 s3 ext h3, okBind,
    ps_make_vector ps_StrId s3 sa s4 ext h4, okBind,
    ps_StrId s4 u4 s5 ext h5, okBind,
    ps_decodeDict ps_StrId (ps_decodeComponent reg) s5 comps s6 ext h6,
    okBind, ps_make_vector ps_StrId s6 bins s7 ext h7, okBind,
    ps_make_vector ps_decodeSource s7 srcs s8 ext h8, okBind]
  obtain ⟨rfl, rfl⟩ := ok_pair_inv h9
  rfl

/-- The `CCharClass` body decoder is prefix-stable. -/
theorem ps_CCharClass (reg : Registry) : PrefixStable (CCharClass reg) := by
  intro s v r ext h
  simp only [CCharClass] at h ⊢
  obtain ⟨⟨mn, s1⟩, h1, h⟩ := bind_ok h
  obtain ⟨⟨u1, s2⟩, h2, h⟩ := bind_ok h
  obtain ⟨⟨u2, s3⟩, h3, h⟩ := bind_ok h
  obtain ⟨⟨u3, s4⟩, h4, h⟩ := bind_ok h
  obtain ⟨⟨sa, s5⟩, h5, h⟩ := bind_ok h
  obtain ⟨⟨u4, s6⟩, h6, h⟩ := bind_ok h
  obtain ⟨⟨magic, s7⟩, h7, h⟩ := bind_ok h
  rw [ps_StrId s mn s1 ext h1, okBind, ps_Int16ul s1 u1 s2 ext h2, okBind,
    ps_Int32ul s2 u2 s3 ext h3, okBind, ps_Int16ul s3 u3 s4 ext h4, okBind,
    ps_make_vector ps_StrId s4 sa s5 ext h5, okBind,
    ps_decodeCount ps_Float32l 9 s5 u4 s6 ext h6, okBind,
    ps_Int32ul s6 magic s7 ext h7, okBind]
  split_ifs at h ⊢
  · obtain ⟨⟨u5, s8⟩, h8, h⟩ := bind_ok h
    obtain ⟨⟨u6, s9⟩, h9, h⟩ := bind_ok h
    obtain ⟨⟨u7, s10⟩, h10, h⟩ := bind_ok h
    obtain ⟨⟨comps, s11⟩, h11, h⟩ := bind_ok h
    obtain ⟨⟨bins, s12⟩, h12, h⟩ := bind_ok h
    obtain ⟨⟨srcs, s13⟩, h13, h14⟩ := bind_ok h
    rw [ps_ByteDec s7 u5 s8 ext h8, okBind, ps_StrId s8 u6 s9 ext h9,
      okBind, ps_ByteDec s9 u7 s10 ext h10, okBind,
      ps_decodeDict ps_StrId (ps_decodeComponent reg) s10 comps s11 ext h11,
      okBind, ps_make_vector ps_StrId s11 bins s12 ext h12, okBind,
      ps_make_vector ps_decodeSource s12 srcs s13 ext h13, okBind]
    obtain ⟨rfl, rfl⟩ := ok_pair_inv h14
    rfl

/-- Whichever body decoder the dispatch table selects is prefix-stable. -/
theorem property_types_inv {reg : Registry} {ty : String}
    {d : Dec DefinitionV} (h : property_types reg ty = some d) :
    d = CCharClass reg ∨ d = CActorDef reg := by
  unfold property_types at h
  split_ifs at h <;> simp_all

/-- The envelope decoder (before the terminated check) is prefix-stable. -/
theorem ps_envelopeDec (reg : Registry) : PrefixStable (envelopeDec reg) := by
  intro s v r ext h
  simp only [envelopeDec] at h ⊢
  obtain ⟨⟨m, s1⟩, h1, h⟩ := bind_ok h
  rw [ps_readBytes 4 s m s1 ext h1, okBind]
  dsimp only at h ⊢
  split_ifs at h ⊢
  · obtain ⟨⟨ver, s2⟩, h2, h⟩ := bind_ok h
    rw [ps_Int32ul s1 ver s2 ext h2, okBind]
    dsimp only at h ⊢
    split_ifs at h ⊢
    · obtain ⟨⟨nm, s3⟩, h3, h⟩ := bind_ok h
      obtain ⟨⟨ty, s4⟩, h4, h⟩ := bind_ok h
      rw [ps_StrId s2 nm s3 ext h3, okBind, ps_StrId s3 ty s4 ext h4,
        okBind]
      dsimp only at h ⊢
      split at h
      · rename_i d hm
        obtain ⟨⟨p, s5⟩, h5, h6⟩ := bind_ok h
        have hd : PrefixStable d := by
          rcases property_types_inv hm with rfl | rfl
          · exact ps_CCharClass reg
          · exact ps_CActorDef reg
        rw [hd s4 p s5 ext h5, okBind]
        obtain ⟨rfl, rfl⟩ := ok_pair_inv h6
        rfl
      · exact absurd h (by simp)

/-- A resource that decodes with the stream exactly exhausted fails with a
format violation when any nonempty suffix is appended: the terminated check
sees the appended bytes. -/
theorem BMSAD_trailing {reg : Registry} {s : List Nat} {v : BmsadV}
    (h : BMSAD reg s = .ok (v, [])) {ext : List Nat} (hne : ext ≠ []) :
    BMSAD reg (s ++ ext) = .error .formatViolation := by
  simp only [BMSAD] at h ⊢
  obtain ⟨⟨w, s5⟩, h1, h2⟩ := bind_ok h
  cases s5 with
  | cons a l => exact absurd h2 (by simp)
  | nil =>
    rw [ps_envelopeDec reg s w [] ext h1, okBind]
    cases ext with
    | nil => exact absurd rfl hne
    | cons b l => rfl

/-- C1: decoding the end-to-end byte stream whose envelope type string is
`ActorDef` does not succeed: the exact-match dispatch table only knows
`CCharClass` and `CActorDef`, so the decode fails with the
unknown-property-type error rather than yielding a definition. -/
theorem c1_counterexample :
    BMSAD trivialReg (emptyActorDefStream "ActorDef") =
      .error (.withMessage "Unknown property type: ActorDef") := by
  decide

/-- C1 (amended): decoding the byte stream with magic `MSAD`, version
`0x0200000F`, name `test`, type `CActorDef` and an `CActorDef` body with
zero sub-actors, zero components, zero binaries and zero sources succeeds,
yielding a definition whose collections are all empty and consuming the
whole stream; appending one extra byte (of any value) makes the decode fail
with a format violation: trailing bytes are fatal. -/
theorem c1_theorem :
    BMSAD trivialReg (emptyActorDefStream "CActorDef") =
      .ok (expectedEmptyActorDef, []) ∧
    ∀ b : Nat, BMSAD trivialReg (emptyActorDefStream "CActorDef" ++ [b]) =
      .error .formatViolation := by
  have hok : BMSAD trivialReg (emptyActorDefStream "CActorDef") =
      .ok (expectedEmptyActorDef, []) := by decide
  exact ⟨hok, fun b => BMSAD_trailing hok (by simp)⟩

/-- An interned key read succeeds on any stream of at least eight bytes. -/
theorem PropertyEnum_ok (interns : List (Nat × String)) (s : List Nat)
    (h : 8 ≤ s.length) :
    ∃ k r, PropertyEnum interns s = .ok (k, r) ∧ s.length - 8 = r.length := by
  simp only [PropertyEnum, readBytes, if_pos h, okBind]
  cases hm : assocFind interns (leNat (s.take 8)) with
  | some n => exact ⟨.known n, s.drop 8, by simp [hm, pureOk], by simp⟩
  | none =>
    exact ⟨.unknown (leNat (s.take 8)), s.drop 8, by simp [hm, pureOk],
      by simp⟩

/-- C2: in a registry where `CFoo` has parent `CBar` and `CBar` has no
registered entry, schema resolution for `CFoo` fails with the unknown-type
error naming `CBar` — the intermediate ancestor at which ascent stopped —
rather than with an unknown-component-type error reporting `CFoo` itself,
and a component FieldBlock decode surfaces that same error. -/
theorem c2_counterexample :
    find_charclass_for_type staleReg (ascentFuel staleReg.parents) "CFoo" =
      .error (.unknownType "CBar") ∧
    decodeFields staleReg "CFoo" (u32le 16 ++ List.replicate 16 0) =
      .error (.unknownType "CBar") := by
  constructor <;> decide

/-- C2 (amended): for every registry and type, schema resolution either
returns the candidate schema name derived from some type in the ascent chain
from the requested type (the root type resolving directly to its fixed
name), or fails with the unknown-type error naming the chain member whose
parent lookup failed — which need not be the originally requested type — or
fails with the recursion-bound error on a pathological chain; the
unknown-component-type error naming the originally requested type arises
from the enclosing schema switch, when the name the resolution returned is
not in the schema table. -/
theorem c2_theorem :
    (∀ (reg : Registry) (fuel : Nat) (t : String),
      (∃ a ∈ ancestorChain reg.parents fuel t,
        find_charclass_for_type reg fuel t = .ok (candidateName a)) ∨
      (∃ a ∈ ancestorChain reg.parents fuel t,
        find_charclass_for_type reg fuel t = .error (.unknownType a)) ∨
      find_charclass_for_type reg fuel t = .error .recursionError) ∧
    (∀ (reg : Registry) (t : String) (s : List Nat) (n : String),
      16 ≤ s.length →
      find_charclass_for_type reg (ascentFuel reg.parents) t = .ok n →
      assocFind reg.fieldtypes n = none →
      decodeFieldsInner reg t s =
        .error (.withMessage ("Unknown component type: " ++ t))) := by
  constructor
  · intro reg fuel
    induction fuel with
    | zero => intro t; exact Or.inr (Or.inr rfl)
    | succ fuel ih =>
      intro t
      by_cases hroot : t = "CActorComponent"
      · subst hroot
        refine Or.inl ⟨"CActorComponent", ?_, ?_⟩
        · simp [ancestorChain]
        · simp [find_charclass_for_type, candidateName]
      · by_cases hcand :
            (assocFind reg.fieldtypes ("CCharClass" ++ t.drop 1)).isSome =
              true
        · refine Or.inl ⟨t, ?_, ?_⟩
          · simp [ancestorChain]
          · simp [find_charclass_for_type, hroot, hcand, candidateName]
        · cases hp : assocFind reg.parents t with
          | none =>
            refine Or.inr (Or.inl ⟨t, ?_, ?_⟩)
            · simp [ancestorChain]
            · simp [find_charclass_for_type, hroot, hcand, get_parent_for,
                hp]
          | some p =>
            have step : find_charclass_for_type reg (fuel + 1) t =
                find_charclass_for_type reg fuel p := by
              simp [find_charclass_for_type, hroot, hcand, get_parent_for,
                hp]
            have hchain : ancestorChain reg.parents (fuel + 1) t =
                t :: ancestorChain reg.parents fuel p := by
              simp [ancestorChain, hp]
            rcases ih p with ⟨a, ha, hr⟩ | ⟨a, ha, hr⟩ | hr
            · exact Or.inl ⟨a, by
                rw [hchain]; exact List.mem_cons_of_mem _ ha,
                by rw [step]; exact hr⟩
            · exact Or.inr (Or.inl ⟨a, by
                rw [hchain]; exact List.mem_cons_of_mem _ ha,
                by rw [step]; exact hr⟩)
            · exact Or.inr (Or.inr (by rw [step]; exact hr))
  · intro reg t s n hlen hfind hnone
    obtain ⟨k1, r1, h1, hl1⟩ := PropertyEnum_ok reg.interns s (by omega)
    obtain ⟨k2, r2, h2, hl2⟩ := PropertyEnum_ok reg.interns r1 (by omega)
    simp only [decodeFieldsInner, h1, okBind, h2, hfind, hnone]

/-- C2 witness: in the empty registry the root component type resolves to
its fixed schema name, which the empty schema table does not register, so
the FieldBlock inner decode fails naming the requested type. -/
theorem c2_witness :
    decodeFieldsInner trivialReg "CActorComponent" (List.replicate 16 0) =
      .error (.withMessage "Unknown component type: CActorComponent") :=
  c2_theorem.2 trivialReg "CActorComponent" (List.replicate 16 0)
    "CActorComponentDef" (by decide) (by decide) rfl

/-- C3: a successfully decoded component carries the extra-property map
exactly when its type is a child of `CComponent`; when that predicate is
false the conditional part yields no value and consumes no bytes — the
field is absent, not an empty map. -/
theorem c3_theorem :
    (∀ (reg : Registry) (s : List Nat) (c : Component) (r : List Nat),
      decodeComponent reg s = .ok (c, r) →
      c.extra_fields.isSome =
        is_child_of reg.parents (ascentFuel reg.parents) c.type
          "CComponent") ∧
    (∀ (reg : Registry) (t : String) (s : List Nat),
      is_child_of reg.parents (ascentFuel reg.parents) t "CComponent" =
        false →
      decodeExtraPart reg t s = .ok (none, s)) := by
  constructor
  · intro reg s c r h
    simp only [decodeComponent] at h
    obtain ⟨⟨t, s1⟩, h1, h⟩ := bind_ok h
    obtain ⟨⟨u, s2⟩, h2, h⟩ := bind_ok h
    obtain ⟨⟨f, s3⟩, h3, h⟩ := bind_ok h
    obtain ⟨⟨ex, s4⟩, h4, h⟩ := bind_ok h
    obtain ⟨⟨fns, s5⟩, h5, h⟩ := bind_ok h
    obtain ⟨⟨deps, s6⟩, h6, h7⟩ := bind_ok h
    obtain ⟨hc, hr⟩ := ok_pair_inv h7
    subst hc
    simp only [decodeExtraPart] at h4
    split_ifs at h4 with hchild
    · obtain ⟨⟨m, s4m⟩, hm, h4m⟩ := bind_ok h4
      obtain ⟨he, _⟩ := ok_pair_inv h4m
      simp [← he, hchild]
    · simp only [Except.ok.injEq, Prod.mk.injEq] at h4
      obtain ⟨he, _⟩ := h4
      simp [← he, Bool.not_eq_true] at hchild ⊢
      simp [hchild]
  · intro reg t s hfalse
    simp [decodeExtraPart, hfalse]

/-- C3 witness: a concrete component of type `CComponent` decodes with the
extra-property map present, matching the child-of predicate. -/
theorem c3_witness :
    (Component.mk "CComponent" [0, 0] .empty (some []) []
        .empty).extra_fields.isSome =
      is_child_of trivialReg.parents (ascentFuel trivialReg.parents)
        (Component.mk "CComponent" [0, 0] .empty (some []) [] .empty).type
        "CComponent" :=
  c3_theorem.1 trivialReg componentStreamC3
    (Component.mk "CComponent" [0, 0] .empty (some []) [] .empty) []
    (by decide)

/-- A successful `find?` returns the first satisfying element: nothing
listed before it satisfies the predicate. -/
theorem find_first {α : Type} (p : α → Bool) :
    ∀ (l : List α) (b : α), l.find? p = some b →
      ∃ l1 l2, l = l1 ++ b :: l2 ∧ p b = true ∧ ∀ x ∈ l1, p x = false := by
  intro l
  induction l with
  | nil => intro b h; simp at h
  | cons a l ih =>
    intro b h
    cases hpa : p a with
    | true =>
      have ha : a = b := by
        have := List.find?_cons_of_pos (p := p) l hpa
        rw [this] at h
        exact Option.some.inj h
      subst ha
      exact ⟨[], l, rfl, hpa, by simp⟩
    | false =>
      have h' : l.find? p = some b := by
        have := List.find?_cons_of_neg (p := p) (a := a) l (by simp [hpa])
        rwa [this] at h
      obtain ⟨l1, l2, rfl, hb, hl1⟩ := ih b h'
      refine ⟨a :: l1, l2, rfl, hb, ?_⟩
      intro x hx
      rcases List.mem_cons.mp hx with rfl | hx
      · exact hpa
      · exact hl1 x hx

/-- C4: dependency dispatch scans the fixed layout list in its defined
order and selects the first base the component type is a child of — every
earlier-listed base does not match — decoding with that base's layout; when
no listed base matches, the payload is the empty variant consuming zero
bytes, not an error. -/
theorem c4_theorem :
    (∀ (reg : Registry) (t b : String),
      component_type reg t = some b →
      ∃ l1 l2, dependencyOrder = l1 ++ b :: l2 ∧
        is_child_of reg.parents (ascentFuel reg.parents) t b = true ∧
        ∀ b' ∈ l1,
          is_child_of reg.parents (ascentFuel reg.parents) t b' = false) ∧
    (∀ (reg : Registry) (t b : String) (s : List Nat),
      component_type reg t = some b →
      Dependencies reg t s = dependencyLayout b s) ∧
    (∀ (reg : Registry) (t : String) (s : List Nat),
      component_type reg t = none →
      Dependencies reg t s = .ok (.empty, s)) := by
  refine ⟨?_, ?_, ?_⟩
  · intro reg t b h
    exact find_first _ _ _ h
  · intro reg t b s h
    simp [Dependencies, h]
  · intro reg t s h
    simp [Dependencies, h]

/-- C4 witness: `CMyComp` is a child of both listed bases
`CCollisionComponent` and `CFXComponent`; the earlier-listed
`CFXComponent`'s layout is the one used. -/
theorem c4_witness :
    is_child_of twoBaseReg.parents (ascentFuel twoBaseReg.parents) "CMyComp"
        "CFXComponent" = true ∧
    is_child_of twoBaseReg.parents (ascentFuel twoBaseReg.parents) "CMyComp"
        "CCollisionComponent" = true ∧
    Dependencies twoBaseReg "CMyComp" [0, 0, 0, 0] =
      dependencyLayout "CFXComponent" [0, 0, 0, 0] :=
  ⟨by decide, by decide,
    c4_theorem.2.1 twoBaseReg "CMyComp" "CFXComponent" [0, 0, 0, 0]
      (by decide)⟩

/-- A 32-bit read of the four-byte little-endian encoding of a number below
`2 ^ 32` returns that number. -/
theorem Int32ul_u32le (n : Nat) (rest : List Nat) (h : n < 2 ^ 32) :
    Int32ul (u32le n ++ rest) = .ok (n, rest) := by
  have h4 : (u32le n).length = 4 := rfl
  have hr := readBytes_append (u32le n) rest
  rw [h4] at hr
  simp only [Int32ul, hr, okBind]
  have hn : leNat (u32le n) = n := by
    simp only [leNat, u32le]
    omega
  rw [hn]
  exact pureOk _

/-- C5: a FieldBlock whose 32-bit length prefix is zero decodes to the
empty block — a normal value — consuming no inner content, whatever the
registries contain and whether or not the component type has a resolvable
schema; a nonzero declared length must be exactly consumed by the inner
content: exact consumption succeeds, under-consumption (leftover bytes in
the declared region) is a format violation, the inner content running past
the declared region is a format violation, and any other inner failure
propagates. -/
theorem c5_theorem :
    (∀ (reg : Registry) (t : String) (rest : List Nat),
      decodeFields reg t ([0, 0, 0, 0] ++ rest) = .ok (.empty, rest)) ∧
    (∀ (reg : Registry) (t : String) (L : Nat) (rest : List Nat),
      L ≠ 0 → L < 2 ^ 32 → L ≤ rest.length →
      (∀ v, decodeFieldsInner reg t (rest.take L) = .ok (v, []) →
        decodeFields reg t (u32le L ++ rest) = .ok (v, rest.drop L)) ∧
      (∀ v lv, decodeFieldsInner reg t (rest.take L) = .ok (v, lv) →
        lv ≠ [] →
        decodeFields reg t (u32le L ++ rest) = .error .formatViolation) ∧
      (decodeFieldsInner reg t (rest.take L) = .error .streamError →
        decodeFields reg t (u32le L ++ rest) = .error .formatViolation) ∧
      (∀ e, decodeFieldsInner reg t (rest.take L) = .error e →
        e ≠ .streamError →
        decodeFields reg t (u32le L ++ rest) = .error e)) := by
  constructor
  · intro reg t rest
    have hint : Int32ul (0 :: 0 :: 0 :: 0 :: rest) = .ok (0, rest) :=
      Int32ul_u32le 0 rest (by norm_num)
    simp [decodeFields, hint, okBind, pureOk]
  · intro reg t L rest hL0 hL32 hLlen
    have hint : Int32ul (u32le L ++ rest) = .ok (L, rest) :=
      Int32ul_u32le L rest hL32
    have hread : readBytes L rest = .ok (rest.take L, rest.drop L) := by
      simp [readBytes, hLlen]
    refine ⟨?_, ?_, ?_, ?_⟩
    · intro v hv
      simp [decodeFields, hint, okBind, hread, hL0, hv, pureOk]
    · intro v lv hv hlv
      simp [decodeFields, hint, okBind, hread, hL0, hv, hlv]
    · intro hv
      simp [decodeFields, hint, okBind, hread, hL0, hv]
    · intro e hv hne
      cases e with
      | streamError => exact absurd rfl hne
      | formatViolation => simp [decodeFields, hint, okBind, hread, hL0, hv]
      | withMessage m => simp [decodeFields, hint, okBind, hread, hL0, hv]
      | unknownType t2 => simp [decodeFields, hint, okBind, hread, hL0, hv]
      | duplicateKey => simp [decodeFields, hint, okBind, hread, hL0, hv]
      | recursionError => simp [decodeFields, hint, okBind, hread, hL0, hv]

/-- C5 witness: with a one-byte schema registered for `CCharClassFoo`, a
17-byte declared FieldBlock region for `CFoo` (two 8-byte placeholders and
the one schema byte) is exactly consumed and decodes; an 18-byte declared
region leaves a byte unconsumed and fails with a format violation; a
zero-length block decodes to the empty block even though `CFoo` has no
resolvable schema in the stale registry. -/
theorem c5_witness :
    decodeFields oneByteSchemaReg "CFoo" (u32le 17 ++ List.replicate 17 0) =
      .ok (.value (.unknown 0) (.unknown 0) [0], []) ∧
    decodeFields oneByteSchemaReg "CFoo" (u32le 18 ++ List.replicate 18 0) =
      .error .formatViolation ∧
    decodeFields staleReg "CFoo" [0, 0, 0, 0] = .ok (.empty, []) := by
  refine ⟨?_, ?_, ?_⟩
  · exact (c5_theorem.2 oneByteSchemaReg "CFoo" 17 (List.replicate 17 0)
      (by decide) (by norm_num) (by decide)).1
      (.value (.unknown 0) (.unknown 0) [0]) (by decide)
  · exact (c5_theorem.2 oneByteSchemaReg "CFoo" 18 (List.replicate 18 0)
      (by decide) (by norm_num) (by decide)).2.1
      (.value (.unknown 0) (.unknown 0) [0]) [0] (by decide) (by decide)
  · simpa using c5_theorem.1 staleReg "CFoo" []

/-- A function-argument map entry whose 8-byte key read succeeds fails
exactly when the argument value decoder fails, with the same error. -/
theorem entry_error_inv (interns : List (Nat × String)) (k rest : List Nat)
    (hk : k.length = 8) (e : DecodeError) :
    (decodeEntry (PropertyEnum interns) FunctionArgument (k ++ rest) =
        .error e) ↔
      FunctionArgument rest = .error e := by
  have hrb : readBytes 8 (k ++ rest) = .ok (k, rest) := by
    have := readBytes_append k rest
    rwa [hk] at this
  have hkey : ∃ key, PropertyEnum interns (k ++ rest) = .ok (key, rest) := by
    simp only [PropertyEnum, hrb, okBind]
    cases assocFind interns (leNat k) <;> exact ⟨_, pureOk _⟩
  obtain ⟨key, hkey⟩ := hkey
  simp only [decodeEntry, hkey, okBind]
  cases hfa : FunctionArgument rest with
  | ok p => simp [hfa, okBind, pureOk]
  | error e2 => simp [hfa, okBind]

/-- C6: two function-argument map entries that differ only in their 8-byte
key, both carrying the unknown discriminant `x`, fail with the identical
error, whose message names the discriminant only — the error does not
report the argument's key, contradicting the claim that it names both. -/
theorem c6_counterexample :
    decodeEntry (PropertyEnum []) FunctionArgument
        ([1, 0, 0, 0, 0, 0, 0, 0] ++ [120]) =
      .error (.withMessage "Unknown argument type: x") ∧
    decodeEntry (PropertyEnum []) FunctionArgument
        ([2, 0, 0, 0, 0, 0, 0, 0] ++ [120]) =
      .error (.withMessage "Unknown argument type: x") := by
  constructor <;> decide

/-- C6 (amended): each function-table argument value reads a one-character
discriminant, with `s` decoding a string, `f` a 32-bit float, `b` a 1-byte
bool and `i` a 32-bit unsigned int; any other character fails the decode
with the unknown-argument-type error naming the offending discriminant
character — and only it: the failure of a keyed argument entry is the value
decoder's failure, identical for every key. -/
theorem c6_theorem :
    (∀ (rest s2 : List Nat) (v : String), cStringChars rest = .ok (v, s2) →
      FunctionArgument (115 :: rest) = .ok (⟨"s", .str v⟩, s2)) ∧
    (∀ (rest s2 : List Nat) (v : Nat), Int32ul rest = .ok (v, s2) →
      FunctionArgument (102 :: rest) = .ok (⟨"f", .float v⟩, s2)) ∧
    (∀ (rest s2 : List Nat) (v : Bool), FlagDec rest = .ok (v, s2) →
      FunctionArgument (98 :: rest) = .ok (⟨"b", .bool v⟩, s2)) ∧
    (∀ (rest s2 : List Nat) (v : Nat), Int32ul rest = .ok (v, s2) →
      FunctionArgument (105 :: rest) = .ok (⟨"i", .int v⟩, s2)) ∧
    (∀ (b : Nat) (rest : List Nat) (t : String),
      CharDec (b :: rest) = .ok (t, rest) →
      t ≠ "s" → t ≠ "f" → t ≠ "b" → t ≠ "i" →
      FunctionArgument (b :: rest) =
        .error (.withMessage ("Unknown argument type: " ++ t))) ∧
    (∀ (interns : List (Nat × String)) (k1 k2 rest : List Nat)
        (e : DecodeError), k1.length = 8 → k2.length = 8 →
      ((decodeEntry (PropertyEnum interns) FunctionArgument (k1 ++ rest) =
          .error e) ↔
        decodeEntry (PropertyEnum interns) FunctionArgument (k2 ++ rest) =
          .error e)) := by
  have hchar : ∀ (b : Nat) (rest : List Nat), b ≠ 0 →
      CharDec (b :: rest) = .ok (String.mk [Char.ofNat b], rest) := by
    intro b rest hb
    simp [CharDec, ByteDec, okBind, pureOk, hb]
  refine ⟨?_, ?_, ?_, ?_, ?_, ?_⟩
  · intro rest s2 v h
    have hc := hchar 115 rest (by norm_num)
    have : String.mk [Char.ofNat 115] = "s" := by decide
    rw [this] at hc
    simp [FunctionArgument, hc, okBind, StrId, h, pureOk]
  · intro rest s2 v h
    have hc := hchar 102 rest (by norm_num)
    have : String.mk [Char.ofNat 102] = "f" := by decide
    rw [this] at hc
    simp [FunctionArgument, hc, okBind, Float32l, h, pureOk]
  · intro rest s2 v h
    have hc := hchar 98 rest (by norm_num)
    have : String.mk [Char.ofNat 98] = "b" := by decide
    rw [this] at hc
    simp [FunctionArgument, hc, okBind, h, pureOk]
  · intro rest s2 v h
    have hc := hchar 105 rest (by norm_num)
    have : String.mk [Char.ofNat 105] = "i" := by decide
    rw [this] at hc
    simp [FunctionArgument, hc, okBind, h, pureOk]
  · intro b rest t hc h1 h2 h3 h4
    simp [FunctionArgument, hc, okBind, h1, h2, h3, h4]
  · intro interns k1 k2 rest e hk1 hk2
    exact (entry_error_inv interns k1 rest hk1 e).trans
      (entry_error_inv interns k2 rest hk2 e).symm

/-- C6 witness: the discriminant `x` fails with the message naming `x`, and
the four valid discriminants decode their values. -/
theorem c6_witness :
    FunctionArgument [120] =
      .error (.withMessage "Unknown argument type: x") ∧
    FunctionArgument (98 :: [1]) = .ok (⟨"b", .bool true⟩, []) :=
  ⟨c6_theorem.2.2.2.2.1 120 [] "x" (by decide) (by decide) (by decide)
      (by decide) (by decide),
    c6_theorem.2.2.1 [1] [] true (by decide)⟩

/-- A successful dictionary adaptation returns the entries unchanged, and
their keys are pairwise distinct. -/
theorem dictAdapt_ok {κ α : Type} [DecidableEq κ] {l m : List (κ × α)}
    (h : dictAdapt l = .ok m) : m = l ∧ (l.map Prod.fst).Nodup := by
  unfold dictAdapt at h
  split_ifs at h with hd
  exact ⟨(Except.ok.inj h).symm, hd⟩

/-- A successfully decoded keyed collection has pairwise distinct keys. -/
theorem decodeDict_nodup {κ α : Type} [DecidableEq κ] {key : Dec κ}
    {d : Dec α} {s : List Nat} {m : List (κ × α)} {r : List Nat}
    (h : decodeDict key d s = .ok (m, r)) : (m.map Prod.fst).Nodup := by
  simp only [decodeDict] at h
  obtain ⟨⟨entries, s1⟩, h1, h2⟩ := bind_ok h
  split at h2
  · rename_i m2 hm
    obtain ⟨he, _⟩ := ok_pair_inv h2
    obtain ⟨rfl, hnd⟩ := dictAdapt_ok hm
    exact he ▸ hnd
  · exact absurd h2 (by simp)

/-- Every element of a successfully decoded fixed-count sequence satisfies
any property enjoyed by every successful decode of the element decoder. -/
theorem decodeCount_mem {α : Type} {d : Dec α} {P : α → Prop}
    (hd : ∀ s x r, d s = .ok (x, r) → P x) :
    ∀ (n : Nat) (s : List Nat) (xs : List α) (r : List Nat),
      decodeCount d n s = .ok (xs, r) → ∀ x ∈ xs, P x := by
  intro n
  induction n with
  | zero =>
    intro s xs r h
    simp only [decodeCount, Except.ok.injEq, Prod.mk.injEq] at h
    obtain ⟨rfl, rfl⟩ := h
    simp
  | succ n ih =>
    intro s xs r h
    simp only [decodeCount] at h
    obtain ⟨⟨x, s1⟩, h1, h⟩ := bind_ok h
    obtain ⟨⟨xs2, s2⟩, h2, h3⟩ := bind_ok h
    obtain ⟨he, _⟩ := ok_pair_inv h3
    subst he
    intro y hy
    rcases List.mem_cons.mp hy with rfl | hy
    · exact hd s y s1 h1
    · exact ih s1 xs2 s2 h2 y hy

/-- A successfully decoded function-table entry has pairwise distinct
argument keys. -/
theorem functionEntry_params_nodup (interns : List (Nat × String)) :
    ∀ (s : List Nat) (fe : FunctionEntry) (r : List Nat),
      functionEntryDec interns s = .ok (fe, r) →
      (fe.params.map Prod.fst).Nodup := by
  intro s fe r h
  simp only [functionEntryDec] at h
  obtain ⟨⟨n, s1⟩, h1, h⟩ := bind_ok h
  obtain ⟨⟨u, s2⟩, h2, h⟩ := bind_ok h
  obtain ⟨⟨ps, s3⟩, h3, h4⟩ := bind_ok h
  obtain ⟨he, _⟩ := ok_pair_inv h4
  subst he
  exact decodeDict_nodup h3

/-- C7: the dictionary adapter shared by all map-keyed collections fails
with the duplicate-key error whenever the decoded keys repeat and otherwise
returns all entries; consequently a successfully decoded component map,
extra-property map or function-entry argument map has pairwise distinct
keys — a later entry never silently shadows an earlier one. -/
theorem c7_theorem :
    (∀ (κ α : Type) [DecidableEq κ] (l : List (κ × α)),
      (¬ (l.map Prod.fst).Nodup → dictAdapt l = .error .duplicateKey) ∧
      ∀ m, dictAdapt l = .ok m → m = l ∧ (l.map Prod.fst).Nodup) ∧
    (∀ (reg : Registry) (s : List Nat) (d : List (String × Component))
        (r : List Nat),
      decodeDict StrId (decodeComponent reg) s = .ok (d, r) →
      (d.map Prod.fst).Nodup) ∧
    (∀ (interns : List (Nat × String)) (s : List Nat)
        (d : List (PKey × ExtraEntryV)) (r : List Nat),
      decodeExtraMap interns s = .ok (d, r) → (d.map Prod.fst).Nodup) ∧
    (∀ (interns : List (Nat × String)) (s : List Nat)
        (fns : List FunctionEntry) (r : List Nat),
      Functions interns s = .ok (fns, r) →
      ∀ fe ∈ fns, (fe.params.map Prod.fst).Nodup) := by
  refine ⟨?_, ?_, ?_, ?_⟩
  · intro κ α inst l
    constructor
    · intro hnd
      simp [dictAdapt, hnd]
    · intro m hm
      exact dictAdapt_ok hm
  · intro reg s d r h
    exact decodeDict_nodup h
  · intro interns s d r h
    exact decodeDict_nodup h
  · intro interns s fns r h
    simp only [Functions, make_vector] at h
    obtain ⟨⟨n, s1⟩, h1, h2⟩ := bind_ok h
    exact decodeCount_mem (functionEntry_params_nodup interns) n s1 fns r h2

/-- C7 witness: a repeated key makes the adapter fail with the
duplicate-key error, and a concrete extra-property stream with the same
8-byte key twice fails the same way. -/
theorem c7_witness :
    dictAdapt [((1 : Nat), true), (1, false)] = .error .duplicateKey ∧
    decodeExtraMap []
        ([2, 0, 0, 0] ++
          ([9, 0, 0, 0, 0, 0, 0, 0] ++ strBytes "bool" ++ [1]) ++
          ([9, 0, 0, 0, 0, 0, 0, 0] ++ strBytes "bool" ++ [0])) =
      .error .duplicateKey :=
  ⟨(c7_theorem.1 Nat Bool [((1 : Nat), true), (1, false)]).1 (by decide),
    by decide⟩

/-- C8: a decode call always terminates with an answer — every input and
every registry produce either a success or an error, the decoder being a
total function whose hierarchy ascents carry explicit fuel mirroring the
interpreter's recursion bound — and on a registry whose parent table is
cyclic the schema ascent exhausts its bound and fails: resolution over the
cycle, and a FieldBlock decode that triggers it, report the recursion error
instead of diverging. -/
theorem c8_theorem :
    (∀ (reg : Registry) (s : List Nat),
      (∃ v r, BMSAD reg s = .ok (v, r)) ∨ ∃ e, BMSAD reg s = .error e) ∧
    find_charclass_for_type cyclicReg (ascentFuel cyclicReg.parents) "CA" =
      .error .recursionError ∧
    decodeFields cyclicReg "CA" (u32le 16 ++ List.replicate 16 0) =
      .error .recursionError := by
  refine ⟨?_, by decide, by decide⟩
  intro reg s
  cases h : BMSAD reg s with
  | ok p => exact Or.inl ⟨p.1, p.2, rfl⟩
  | error e => exact Or.inr ⟨e, rfl⟩

/-- C9: for any type other than the root whose derived candidate schema
name is registered, resolution returns that candidate at once, whatever the
hierarchy table contains — the parent table is never consulted, so the type
decodes even with no hierarchy entry at all. -/
theorem c9_theorem (parents : List (String × String))
    (ft : List (String × Dec (List Nat))) (interns : List (Nat × String))
    (fuel : Nat) (t : String) (h1 : t ≠ "CActorComponent")
    (h2 : (assocFind ft ("CCharClass" ++ t.drop 1)).isSome = true) :
    find_charclass_for_type ⟨parents, ft, interns⟩ (fuel + 1) t =
      .ok ("CCharClass" ++ t.drop 1) := by
  simp [find_charclass_for_type, h1, h2]

/-- C9 witness: `CWeird` has no hierarchy entry at all, yet with
`CCharClassWeird` registered its resolution succeeds immediately. -/
theorem c9_witness :
    find_charclass_for_type weirdSchemaReg 1 "CWeird" =
      .ok "CCharClassWeird" :=
  c9_theorem [] weirdSchemaReg.fieldtypes [] 0 "CWeird" (by decide) rfl

/-- C10: the extra-property type tag is decoded as a full string and
compared case-sensitively against exactly `bool` and `string`, which select
the flag and string value decoders; any other tag — `Bool` or `int`, say —
fails the decode with the unknown-argument-type error naming the tag,
rather than being skipped or defaulted. -/
theorem c10_theorem :
    (∀ (s s1 s2 : List Nat) (v : Bool), cStringChars s = .ok ("bool", s1) →
      FlagDec s1 = .ok (v, s2) →
      decodeExtraEntry s = .ok (⟨"bool", .bool v⟩, s2)) ∧
    (∀ (s s1 s2 : List Nat) (v : String),
      cStringChars s = .ok ("string", s1) → cStringChars s1 = .ok (v, s2) →
      decodeExtraEntry s = .ok (⟨"string", .str v⟩, s2)) ∧
    (∀ (s s1 : List Nat) (t : String), cStringChars s = .ok (t, s1) →
      t ≠ "bool" → t ≠ "string" →
      decodeExtraEntry s =
        .error (.withMessage ("Unknown argument type: " ++ t))) := by
  refine ⟨?_, ?_, ?_⟩
  · intro s s1 s2 v h1 h2
    simp [decodeExtraEntry, StrId, h1, okBind, h2, pureOk]
  · intro s s1 s2 v h1 h2
    simp [decodeExtraEntry, StrId, h1, okBind, h2, pureOk]
  · intro s s1 t h1 ht1 ht2
    simp [decodeExtraEntry, StrId, h1, okBind, ht1, ht2]

/-- C10 witness: the tag `Bool` (wrong case) fails the entry decode with
the error naming it, while the tag `bool` decodes a flag value. -/
theorem c10_witness :
    decodeExtraEntry (strBytes "Bool" ++ [1]) =
      .error (.withMessage "Unknown argument type: Bool") ∧
    decodeExtraEntry (strBytes "bool" ++ [1]) =
      .ok (⟨"bool", .bool true⟩, []) :=
  ⟨c10_theorem.2.2 (strBytes "Bool" ++ [1]) [1] "Bool" (by decide)
      (by decide) (by decide),
    c10_theorem.1 (strBytes "bool" ++ [1]) [1] [] true (by decide)
      (by decide)⟩

end Bmsad
